import Mathlib

/-!
Verification of the `trickert76/ansible-modules` repository: a shallow
embedding of the two modules `library/define_configuration.py`
(ConfigStore) and `library/move.py` (FileRelocator), together with
theorems settling the specification claims about them.

JSON documents handled by `define_configuration.py` are dictionaries
whose keys and values are strings (the module documentation requires
"Keys and Values should be of type str").  A Python dict is embedded as
an association list with distinct keys; assignment `d[k] = v` replaces
the value in place when the key is present and appends otherwise, and
`d.update(other)` folds that assignment over `other`, exactly as CPython
does.  The on-disk JSON file is modelled as the abstract document it
serializes together with its file mode: `write_config` stores the
document and chmods the file, `read_config` returns the stored document.
-/

/-- A Python `dict` with string keys and values, as an association list
in insertion order. -/
abbrev Dict := List (String × String)

/-- `d[k]` lookup: the value of the first entry whose key is `k`. -/
def lookupKey (d : Dict) (k : String) : Option String :=
  (d.find? (fun kv => kv.1 == k)).map (fun kv => kv.2)

/-- `k in d` for a Python dict. -/
def containsKey (d : Dict) (k : String) : Bool :=
  d.any (fun kv => kv.1 == k)

/-- Python assignment `d[k] = v`: replace in place when present,
append otherwise. -/
def dictSet (d : Dict) (k v : String) : Dict :=
  if containsKey d k then
    d.map (fun kv => if kv.1 == k then (k, v) else kv)
  else
    d ++ [(k, v)]

/-- Python `b.update(c)`: assign every entry of `c` into `b`. -/
def dictUpdate (b c : Dict) : Dict :=
  c.foldl (fun acc kv => dictSet acc kv.1 kv.2) b

/-- The merge loop of `define_configuration.main` when `override` is
false (lines 153-156): `for name in before_data: if name in changeset:
changeset[name] = before_data[name]`. -/
def mergeKeepExisting (before cs : Dict) : Dict :=
  before.foldl
    (fun acc kv => if containsKey acc kv.1 then dictSet acc kv.1 kv.2 else acc)
    cs

/-- A dict arising from a Python dict or a parsed JSON object has
pairwise distinct keys. -/
def KeysNodup (d : Dict) : Prop :=
  (d.map (fun kv => kv.1)).Nodup

instance (d : Dict) : Decidable (KeysNodup d) := by
  unfold KeysNodup; infer_instance

/-- The JSON file handled by `define_configuration.py`: the document it
holds and its mode (`write_config` runs `json.dump` and `os.chmod`). -/
structure FileState where
  data : Dict
  mode : Int
deriving DecidableEq, Repr

/-- The parameters of a `define_configuration` invocation (`file` is
implicit: the filesystem model below is the state of that one path). -/
structure ConfigParams where
  content : Dict
  override : Bool
  mode : Int
  checkMode : Bool
deriving DecidableEq, Repr

/-- The Ansible result dict built by `define_configuration.main`. -/
structure ConfigResult where
  changed : Bool
  msg : String
  value : Dict
  proposed : Dict
deriving DecidableEq, Repr

/-- A full outcome of `define_configuration.main`: the reported result,
the state of the configured path afterwards, and the final state of the
caller-supplied `content` dict object.  The source binds
`changeset = content` (line 127), an alias, so every in-place update of
`changeset` is an update of the caller's object; `contentAfter` records
what that object holds when the module exits. -/
structure ConfigOutcome where
  result : ConfigResult
  file : Option FileState
  contentAfter : Dict
deriving DecidableEq, Repr

/-- Shallow embedding of `define_configuration.main` (lines 105-181),
acting on the state of the configured path.  `result['proposed']` is
`changeset.copy()` taken before any merge, hence the original content.
`os.makedirs`, ownership and `dir_mode` are abstracted away: they never
affect the document, the mode of the file, or the reported result. -/
def configMain (file : Option FileState) (p : ConfigParams) : ConfigOutcome :=
  let changeset := p.content
  let proposed := changeset
  match file with
  | none =>
      { result := { changed := true, msg := "Configuration created",
                    value := changeset, proposed := proposed },
        file := if p.checkMode then none else some { data := changeset, mode := p.mode },
        contentAfter := changeset }
  | some st =>
      let before := st.data
      let cs2 := if p.override then changeset else mergeKeepExisting before changeset
      let changed := p.override
      let msg := if p.override then "Configuration updated" else "Configuration read"
      let updated := dictUpdate before cs2
      { result := { changed := changed, msg := msg,
                    value := updated, proposed := proposed },
        file := if p.checkMode then some st else some { data := updated, mode := p.mode },
        contentAfter := cs2 }

/-- The blake2b content checksum of `move.checksum` (lines 59-67),
abstracted as a collision-free digest of the file content: the model
takes the digest to be the content itself, so digests are equal exactly
when the contents are. -/
def checksum (content : String) : String := content

/-- The filesystem as seen by `move.main`: the contents of the source
path and of the destination path (`none` when the path does not
exist). -/
structure MoveState where
  src : Option String
  dest : Option String
deriving DecidableEq, Repr

/-- The parameters of a `move` invocation. -/
structure MoveParams where
  src : String
  dest : String
  validate : Bool
  checkMode : Bool
deriving DecidableEq, Repr

/-- The `changed` flag and message computed at lines 82-95 of
`move.main`, before any filesystem action: when source, destination and
`validate` all hold, compare checksums; otherwise `changed` is "source
exists and destination does not", with the default message
`File already moved`. -/
def moveDecision (validate : Bool) (st : MoveState) : Bool × String :=
  match st.src, st.dest, validate with
  | some cs, some cd, true =>
      if checksum cs != checksum cd then
        (true, "File exists, but is different, moving src to dest")
      else
        (false, "File exists and src and dest are the same, removing source")
  | s, d, _ =>
      if s.isSome && d.isNone then
        (true, "Destination file doesnt exists, moving src to dest")
      else
        (false, "File already moved")

/-- Outcome of `move.main`: a normal `exit_json` (whose `msg` field is
absent in check mode, line 98), a `fail_json`, or an uncaught Python
exception escaping `main`. -/
inductive MoveOutcome where
  | ok (changed : Bool) (msg : Option String) (st : MoveState)
  | failed (msg : String) (st : MoveState)
  | crashed (exn : String) (st : MoveState)
deriving DecidableEq, Repr

/-- The filesystem state an outcome leaves behind. -/
def MoveOutcome.state : MoveOutcome → MoveState
  | .ok _ _ st => st
  | .failed _ st => st
  | .crashed _ st => st

/-- The `changed` flag reported by an outcome, when one is reported. -/
def MoveOutcome.changedOf : MoveOutcome → Option Bool
  | .ok changed _ _ => some changed
  | .failed _ _ => none
  | .crashed _ _ => none

/-- Shallow embedding of `move.main` (lines 69-119).  `replaceErr` and
`removeErr` inject the OS error that `os.replace` (line 103) and
`os.remove` (line 112) raise, `none` meaning the call succeeds; this
models the `except Exception` handlers.  In the `os.remove` handler the
source interpolates three values `(src_file, dest_file, str(e))` into
the two-placeholder format `'Could not remove src file %s: %s'`, which
in Python raises `TypeError: not all arguments converted during string
formatting` inside the handler instead of calling `fail_json`; the model
returns `crashed` with that exception text. -/
def moveMain (p : MoveParams) (st : MoveState) (replaceErr removeErr : Option String) :
    MoveOutcome :=
  let dec := moveDecision p.validate st
  let changed := dec.1
  let msg := dec.2
  if p.checkMode then
    .ok changed none st
  else if changed then
    match replaceErr with
    | some e =>
        .failed ("Could not move file " ++ p.src ++ " to " ++ p.dest ++ ": " ++ e) st
    | none => .ok changed (some msg) { src := none, dest := st.src }
  else if p.validate && st.src.isSome then
    match removeErr with
    | some _ =>
        .crashed "TypeError: not all arguments converted during string formatting" st
    | none => .ok changed (some msg) { src := none, dest := st.dest }
  else
    .ok changed (some msg) st

theorem lookupKey_nil (k : String) : lookupKey [] k = none := rfl

theorem lookupKey_cons (kv : String × String) (d : Dict) (k : String) :
    lookupKey (kv :: d) k = if kv.1 == k then some kv.2 else lookupKey d k := by
  cases h : kv.1 == k <;> simp [lookupKey, List.find?_cons, h]

theorem containsKey_nil (k : String) : containsKey [] k = false := rfl

theorem containsKey_cons (kv : String × String) (d : Dict) (k : String) :
    containsKey (kv :: d) k = (kv.1 == k || containsKey d k) := by
  simp [containsKey]

theorem containsKey_iff_mem_keys (d : Dict) (k : String) :
    containsKey d k = true ↔ k ∈ d.map (fun kv => kv.1) := by
  simp [containsKey, List.any_eq_true, List.mem_map]

theorem lookupKey_eq_none (d : Dict) (k : String) (h : containsKey d k = false) :
    lookupKey d k = none := by
  induction d with
  | nil => rfl
  | cons kv rest ih =>
      rw [containsKey_cons] at h
      rcases Bool.or_eq_false_iff.mp h with ⟨h1, h2⟩
      rw [lookupKey_cons, h1, if_neg (by simp)]
      exact ih h2

theorem containsKey_of_lookup (d : Dict) (k v : String) (h : lookupKey d k = some v) :
    containsKey d k = true := by
  cases hc : containsKey d k
  · rw [lookupKey_eq_none d k hc] at h
    cases h
  · rfl


theorem lookupKey_map_set (d : Dict) (k v : String) (h : containsKey d k = true) :
    lookupKey (d.map (fun kv => if kv.1 == k then (k, v) else kv)) k = some v := by
  induction d with
  | nil => simp [containsKey] at h
  | cons kv rest ih =>
      cases hh : kv.1 == k
      · rw [containsKey_cons, hh, Bool.false_or] at h
        have hf : (if kv.1 == k then (k, v) else kv) = kv := by simp [hh]
        rw [List.map_cons, hf, lookupKey_cons, hh, if_neg (by simp)]
        exact ih h
      · have hf : (if kv.1 == k then (k, v) else kv) = (k, v) := by simp [hh]
        rw [List.map_cons, hf, lookupKey_cons]
        simp

theorem lookupKey_map_set_ne (d : Dict) (k v k' : String) (hne : k' ≠ k) :
    lookupKey (d.map (fun kv => if kv.1 == k then (k, v) else kv)) k' = lookupKey d k' := by
  have hkk' : (k == k') = false := by
    simp only [beq_eq_false_iff_ne, ne_eq]
    intro he
    exact hne he.symm
  induction d with
  | nil => rfl
  | cons kv rest ih =>
      cases hh : kv.1 == k
      · have hf : (if kv.1 == k then (k, v) else kv) = kv := by simp [hh]
        rw [List.map_cons, hf, lookupKey_cons, lookupKey_cons]
        cases hh' : kv.1 == k'
        · rw [if_neg (by simp), if_neg (by simp)]
          exact ih
        · rw [if_pos rfl, if_pos rfl]
      · have hk : kv.1 = k := by simpa using hh
        have hf : (if kv.1 == k then (k, v) else kv) = (k, v) := by simp [hh]
        rw [List.map_cons, hf, lookupKey_cons, lookupKey_cons]
        have h1 : ((k, v).1 == k') = false := hkk'
        have h2 : (kv.1 == k') = false := by rw [hk]; exact hkk'
        rw [h1, h2, if_neg (by simp), if_neg (by simp)]
        exact ih

theorem lookupKey_append_single (d : Dict) (k v : String) (h : containsKey d k = false) :
    lookupKey (d ++ [(k, v)]) k = some v := by
  induction d with
  | nil => simp [lookupKey]
  | cons kv rest ih =>
      rw [containsKey_cons] at h
      rcases Bool.or_eq_false_iff.mp h with ⟨h1, h2⟩
      rw [List.cons_append, lookupKey_cons, h1, if_neg (by simp)]
      exact ih h2

theorem lookupKey_append_single_ne (d : Dict) (k v k' : String) (hne : k' ≠ k) :
    lookupKey (d ++ [(k, v)]) k' = lookupKey d k' := by
  have hkk' : (k == k') = false := by
    simp only [beq_eq_false_iff_ne, ne_eq]
    intro he
    exact hne he.symm
  induction d with
  | nil => simp [lookupKey, List.find?, hkk']
  | cons kv rest ih =>
      rw [List.cons_append, lookupKey_cons, lookupKey_cons]
      cases hh : kv.1 == k'
      · rw [if_neg (by simp [hh]), if_neg (by simp [hh])]
        exact ih
      · rw [if_pos (by simp [hh]), if_pos (by simp [hh])]

theorem lookupKey_set_self (d : Dict) (k v : String) :
    lookupKey (dictSet d k v) k = some v := by
  unfold dictSet
  cases h : containsKey d k
  · rw [if_neg (by simp [h])]
    exact lookupKey_append_single d k v h
  · rw [if_pos (by simp [h])]
    exact lookupKey_map_set d k v h

theorem lookupKey_set_ne (d : Dict) (k v k' : String) (hne : k' ≠ k) :
    lookupKey (dictSet d k v) k' = lookupKey d k' := by
  unfold dictSet
  cases h : containsKey d k
  · rw [if_neg (by simp [h])]
    exact lookupKey_append_single_ne d k v k' hne
  · rw [if_pos (by simp [h])]
    exact lookupKey_map_set_ne d k v k' hne

theorem keys_set_of_contains (d : Dict) (k v : String) (h : containsKey d k = true) :
    (dictSet d k v).map (fun kv => kv.1) = d.map (fun kv => kv.1) := by
  unfold dictSet
  rw [if_pos (by simp [h]), List.map_map]
  apply List.map_congr_left
  intro a _
  simp only [Function.comp]
  cases hx : a.1 == k
  · simp
  · have ha : a.1 = k := by simpa using hx
    simp [ha]

theorem containsKey_eq_of_keys_eq (d d' : Dict)
    (h : d.map (fun kv => kv.1) = d'.map (fun kv => kv.1)) (k : String) :
    containsKey d k = containsKey d' k := by
  cases hc : containsKey d' k
  · cases hc2 : containsKey d k
    · rfl
    · exfalso
      have hm := (containsKey_iff_mem_keys d k).mp hc2
      rw [h] at hm
      rw [(containsKey_iff_mem_keys d' k).mpr hm] at hc
      cases hc
  · have hm := (containsKey_iff_mem_keys d' k).mp hc
    rw [← h] at hm
    exact (containsKey_iff_mem_keys d k).mpr hm

theorem mergeKeepExisting_nil (c : Dict) : mergeKeepExisting [] c = c := rfl

theorem mergeKeepExisting_cons (kv : String × String) (rest c : Dict) :
    mergeKeepExisting (kv :: rest) c =
      mergeKeepExisting rest (if containsKey c kv.1 then dictSet c kv.1 kv.2 else c) := rfl

theorem dictUpdate_nil (b : Dict) : dictUpdate b [] = b := rfl

theorem dictUpdate_cons (b : Dict) (kv : String × String) (rest : Dict) :
    dictUpdate b (kv :: rest) = dictUpdate (dictSet b kv.1 kv.2) rest := rfl

theorem keys_merge (b c : Dict) :
    (mergeKeepExisting b c).map (fun kv => kv.1) = c.map (fun kv => kv.1) := by
  induction b generalizing c with
  | nil => rfl
  | cons kv rest ih =>
      rw [mergeKeepExisting_cons, ih]
      cases hc : containsKey c kv.1
      · rw [if_neg (by simp [hc])]
      · rw [if_pos (by simp [hc])]
        exact keys_set_of_contains c kv.1 kv.2 hc

theorem containsKey_merge (b c : Dict) (k : String) :
    containsKey (mergeKeepExisting b c) k = containsKey c k :=
  containsKey_eq_of_keys_eq _ _ (keys_merge b c) k

theorem KeysNodup_merge (b c : Dict) (hc : KeysNodup c) :
    KeysNodup (mergeKeepExisting b c) := by
  unfold KeysNodup at hc ⊢
  rw [keys_merge]
  exact hc

theorem KeysNodup_cons_tail (kv : String × String) (rest : Dict)
    (h : KeysNodup (kv :: rest)) : KeysNodup rest := by
  unfold KeysNodup at h ⊢
  rw [List.map_cons] at h
  exact (List.nodup_cons.mp h).2

theorem KeysNodup_cons_head (kv : String × String) (rest : Dict)
    (h : KeysNodup (kv :: rest)) : containsKey rest kv.1 = false := by
  unfold KeysNodup at h
  rw [List.map_cons] at h
  cases hc : containsKey rest kv.1
  · rfl
  · exact absurd ((containsKey_iff_mem_keys rest kv.1).mp hc)
      (List.nodup_cons.mp h).1

theorem lookupKey_update (c : Dict) (hc : KeysNodup c) (b : Dict) (k : String) :
    lookupKey (dictUpdate b c) k =
      if containsKey c k then lookupKey c k else lookupKey b k := by
  induction c generalizing b with
  | nil => simp [dictUpdate, containsKey]
  | cons kv rest ih =>
      have hnd : KeysNodup rest := KeysNodup_cons_tail kv rest hc
      have hcr : containsKey rest kv.1 = false := KeysNodup_cons_head kv rest hc
      rw [dictUpdate_cons, ih hnd]
      cases hk : kv.1 == k
      · have hne : k ≠ kv.1 := by
          intro he
          rw [he] at hk
          simp at hk
        rw [lookupKey_set_ne b kv.1 kv.2 k hne, containsKey_cons, hk,
          Bool.false_or, lookupKey_cons, hk]
        simp
      · have hke : kv.1 = k := by simpa using hk
        subst hke
        rw [hcr, if_neg (by simp), lookupKey_set_self, containsKey_cons,
          lookupKey_cons]
        simp

theorem lookupKey_merge (b : Dict) (hb : KeysNodup b) (c : Dict) (k : String) :
    lookupKey (mergeKeepExisting b c) k =
      if containsKey c k && containsKey b k then lookupKey b k else lookupKey c k := by
  induction b generalizing c with
  | nil => simp [mergeKeepExisting_nil, containsKey]
  | cons kv rest ih =>
      have hnd : KeysNodup rest := KeysNodup_cons_tail kv rest hb
      have hcr : containsKey rest kv.1 = false := KeysNodup_cons_head kv rest hb
      rw [mergeKeepExisting_cons, ih hnd]
      have hkeys : (if containsKey c kv.1 then dictSet c kv.1 kv.2 else c).map
          (fun kv => kv.1) = c.map (fun kv => kv.1) := by
        cases hc : containsKey c kv.1
        · rw [if_neg (by simp [hc])]
        · rw [if_pos (by simp [hc])]
          exact keys_set_of_contains c kv.1 kv.2 hc
      have hcontains : ∀ x, containsKey
          (if containsKey c kv.1 then dictSet c kv.1 kv.2 else c) x = containsKey c x :=
        fun x => containsKey_eq_of_keys_eq _ _ hkeys x
      cases hk : kv.1 == k
      · have hne : k ≠ kv.1 := by
          intro he
          rw [he] at hk
          simp at hk
        have hlc : lookupKey (if containsKey c kv.1 then dictSet c kv.1 kv.2 else c) k =
            lookupKey c k := by
          cases hc : containsKey c kv.1
          · rw [if_neg (by simp [hc])]
          · rw [if_pos (by simp [hc])]
            exact lookupKey_set_ne c kv.1 kv.2 k hne
        rw [hcontains k, hlc, containsKey_cons, hk, Bool.false_or,
          lookupKey_cons, hk]
        simp
      · have hke : kv.1 = k := by simpa using hk
        subst hke
        rw [hcontains kv.1, hcr, containsKey_cons, lookupKey_cons]
        have htr : (kv.1 == kv.1) = true := by simp
        rw [htr, Bool.true_or, if_pos rfl]
        rw [Bool.and_false, if_neg (by simp)]
        cases hc : containsKey c kv.1
        · rw [if_neg (by simp [hc]), Bool.false_and, if_neg (by simp)]
        · rw [if_pos (by simp [hc]), Bool.true_and, if_pos rfl]
          exact lookupKey_set_self c kv.1 kv.2

theorem lookupKey_of_mem (d : Dict) (hd : KeysNodup d) (kv : String × String)
    (hm : kv ∈ d) : lookupKey d kv.1 = some kv.2 := by
  induction d with
  | nil => cases hm
  | cons kv0 rest ih =>
      rcases List.mem_cons.mp hm with he | ht
      · subst he
        rw [lookupKey_cons]
        simp
      · have hcr : containsKey rest kv0.1 = false := KeysNodup_cons_head kv0 rest hd
        have hkne : (kv0.1 == kv.1) = false := by
          simp only [beq_eq_false_iff_ne, ne_eq]
          intro he
          have : containsKey rest kv0.1 = true := by
            rw [he]
            exact (containsKey_iff_mem_keys rest kv.1).mpr
              (List.mem_map.mpr ⟨kv, ht, rfl⟩)
          rw [this] at hcr
          cases hcr
        rw [lookupKey_cons, hkne, if_neg (by simp)]
        exact ih (KeysNodup_cons_tail kv0 rest hd) ht

theorem dictSet_eq_self (d : Dict) (hd : KeysNodup d) (k v : String)
    (h : lookupKey d k = some v) : dictSet d k v = d := by
  unfold dictSet
  rw [if_pos (by simp [containsKey_of_lookup d k v h])]
  have : ∀ kv ∈ d, (if kv.1 == k then (k, v) else kv) = kv := by
    intro kv hm
    cases hx : kv.1 == k
    · rw [if_neg (by simp)]
    · have hk : kv.1 = k := by simpa using hx
      have hv : lookupKey d k = some kv.2 := by
        rw [← hk]
        exact lookupKey_of_mem d hd kv hm
      rw [h] at hv
      have hv2 : v = kv.2 := Option.some.inj hv
      rw [if_pos rfl, ← hk, hv2]
  calc d.map (fun kv => if kv.1 == k then (k, v) else kv)
      = d.map id := List.map_congr_left this
    _ = d := List.map_id d

theorem dictUpdate_self (d : Dict) (hd : KeysNodup d) : dictUpdate d d = d := by
  have aux : ∀ (l b : Dict), KeysNodup b → (∀ kv ∈ l, lookupKey b kv.1 = some kv.2) →
      l.foldl (fun acc kv => dictSet acc kv.1 kv.2) b = b := by
    intro l
    induction l with
    | nil => intro b _ _; rfl
    | cons kv rest ih =>
        intro b hb hl
        rw [List.foldl_cons, dictSet_eq_self b hb kv.1 kv.2 (hl kv (List.mem_cons_self kv rest))]
        exact ih b hb (fun kv2 hm => hl kv2 (List.mem_cons_of_mem kv hm))
  exact aux d d hd (fun kv hm => lookupKey_of_mem d hd kv hm)

theorem mergeKeepExisting_self (d : Dict) (hd : KeysNodup d) :
    mergeKeepExisting d d = d := by
  have aux : ∀ (l b : Dict), KeysNodup b → (∀ kv ∈ l, lookupKey b kv.1 = some kv.2) →
      l.foldl (fun acc kv => if containsKey acc kv.1 then dictSet acc kv.1 kv.2 else acc) b
        = b := by
    intro l
    induction l with
    | nil => intro b _ _; rfl
    | cons kv rest ih =>
        intro b hb hl
        have hlk := hl kv (List.mem_cons_self kv rest)
        rw [List.foldl_cons, if_pos (by simp [containsKey_of_lookup b kv.1 kv.2 hlk]),
          dictSet_eq_self b hb kv.1 kv.2 hlk]
        exact ih b hb (fun kv2 hm => hl kv2 (List.mem_cons_of_mem kv hm))
  exact aux d d hd (fun kv hm => lookupKey_of_mem d hd kv hm)

/-- C1: ConfigStore final-mapping semantics.  For an existing on-disk
document `st.data` and desired change set `p.content`, the reported
`value` (and, when not in check mode, the written document) maps a key
present in both to the existing value when `override = false` and to the
desired value when `override = true`; a key only in the change set is
added with its desired value; a key only in the existing document keeps
its existing value. -/
theorem configStore_final_mapping (st : FileState) (p : ConfigParams) (k : String)
    (hb : KeysNodup st.data) (hc : KeysNodup p.content) :
    (containsKey st.data k = true → containsKey p.content k = true →
      lookupKey (configMain (some st) p).result.value k =
        (if p.override then lookupKey p.content k else lookupKey st.data k)) ∧
    (containsKey st.data k = false → containsKey p.content k = true →
      lookupKey (configMain (some st) p).result.value k = lookupKey p.content k) ∧
    (containsKey st.data k = true → containsKey p.content k = false →
      lookupKey (configMain (some st) p).result.value k = lookupKey st.data k) ∧
    (p.checkMode = false →
      (configMain (some st) p).file =
        some { data := (configMain (some st) p).result.value, mode := p.mode }) := by
  cases ho : p.override
  · have hval : (configMain (some st) p).result.value =
        dictUpdate st.data (mergeKeepExisting st.data p.content) := by
      simp [configMain, ho]
    have hn2 : KeysNodup (mergeKeepExisting st.data p.content) :=
      KeysNodup_merge st.data p.content hc
    have hupd := lookupKey_update _ hn2 st.data k
    have hcm := containsKey_merge st.data p.content k
    have hlm := lookupKey_merge st.data hb p.content k
    refine ⟨?_, ?_, ?_, ?_⟩
    · intro h1 h2
      rw [hval, hupd, hcm, hlm, h1, h2]
      simp
    · intro h1 h2
      rw [hval, hupd, hcm, hlm, h1, h2]
      simp
    · intro h1 h2
      rw [hval, hupd, hcm, hlm, h1, h2]
      simp
    · intro hcm2
      simp [configMain, ho, hcm2]
  · have hval : (configMain (some st) p).result.value =
        dictUpdate st.data p.content := by
      simp [configMain, ho]
    have hupd := lookupKey_update _ hc st.data k
    refine ⟨?_, ?_, ?_, ?_⟩
    · intro h1 h2
      rw [hval, hupd, h2]
    · intro h1 h2
      rw [hval, hupd, h2]
      simp
    · intro h1 h2
      rw [hval, hupd, h2]
      simp
    · intro hcm2
      simp [configMain, ho, hcm2]

/-- C1 witness: an existing document with keys `a` (overlapping) and `b`
(existing only), a change set with keys `a` and `c`, `override = false`:
the overlapping key keeps its existing value. -/
theorem configStore_final_mapping_witness :
    lookupKey (configMain
      (some { data := [("a", "old"), ("b", "keep")], mode := 384 })
      { content := [("a", "new"), ("c", "add")], override := false,
        mode := 384, checkMode := false }).result.value "a" = some "old" := by
  have h := (configStore_final_mapping
    { data := [("a", "old"), ("b", "keep")], mode := 384 }
    { content := [("a", "new"), ("c", "add")], override := false,
      mode := 384, checkMode := false } "a" (by decide) (by decide)).1
    (by decide) (by decide)
  rw [h]
  decide

/-- C3: ConfigStore changed-flag and message semantics: a missing file
reports `changed = true` with "Configuration created"; an existing file
reports `changed = false` with "Configuration read" when
`override = false` (even when new keys are merged in) and
`changed = true` with "Configuration updated" when `override = true`. -/
theorem configStore_changed_msg (file : Option FileState) (p : ConfigParams) :
    (file = none →
      (configMain file p).result.changed = true ∧
      (configMain file p).result.msg = "Configuration created") ∧
    (∀ st, file = some st → p.override = false →
      (configMain file p).result.changed = false ∧
      (configMain file p).result.msg = "Configuration read") ∧
    (∀ st, file = some st → p.override = true →
      (configMain file p).result.changed = true ∧
      (configMain file p).result.msg = "Configuration updated") := by
  refine ⟨?_, ?_, ?_⟩
  · intro h
    subst h
    exact ⟨rfl, rfl⟩
  · intro st h ho
    subst h
    constructor <;> simp [configMain, ho]
  · intro st h ho
    subst h
    constructor <;> simp [configMain, ho]

/-- C3 witness: with an existing file and `override = false`, the result
is `changed = false`, message "Configuration read", even though the new
key `c` is merged in. -/
theorem configStore_changed_msg_witness :
    (configMain (some { data := [("a", "1")], mode := 384 })
      { content := [("c", "2")], override := false,
        mode := 384, checkMode := false }).result.changed = false ∧
    (configMain (some { data := [("a", "1")], mode := 384 })
      { content := [("c", "2")], override := false,
        mode := 384, checkMode := false }).result.msg = "Configuration read" :=
  (configStore_changed_msg (some { data := [("a", "1")], mode := 384 })
    { content := [("c", "2")], override := false,
      mode := 384, checkMode := false }).2.1
    { data := [("a", "1")], mode := 384 } rfl rfl

/-- C7: ConfigStore writes even when unchanged: in every non-check-mode
run on an existing file, the final merged mapping is written back
unconditionally (also when `changed = false` is reported) and the
on-disk file afterwards holds exactly the final mapping with the
requested mode reapplied. -/
theorem configStore_always_writes (st : FileState) (p : ConfigParams)
    (h : p.checkMode = false) :
    (configMain (some st) p).file =
      some { data := (configMain (some st) p).result.value, mode := p.mode } := by
  cases ho : p.override <;> simp [configMain, ho, h]

/-- C7 witness: `override = false` reports `changed = false`, yet the
file is rewritten with the merged mapping and the requested mode. -/
theorem configStore_always_writes_witness :
    (configMain (some { data := [("a", "1")], mode := 256 })
      { content := [("c", "2")], override := false,
        mode := 384, checkMode := false }).result.changed = false ∧
    (configMain (some { data := [("a", "1")], mode := 256 })
      { content := [("c", "2")], override := false,
        mode := 384, checkMode := false }).file =
      some { data := (configMain (some { data := [("a", "1")], mode := 256 })
        { content := [("c", "2")], override := false,
          mode := 384, checkMode := false }).result.value, mode := 384 } :=
  ⟨by decide,
   configStore_always_writes { data := [("a", "1")], mode := 256 }
    { content := [("c", "2")], override := false, mode := 384, checkMode := false }
    rfl⟩

/-- C8 counterexample: with an existing file `{"a": "2"}`, desired
changes `{"a": "1"}` and `override = false`, the caller-supplied content
object no longer holds the supplied pair after the run: the merge loop
wrote the on-disk value into it through the `changeset = content`
alias. -/
theorem configStore_aliasing_cex :
    (configMain (some { data := [("a", "2")], mode := 384 })
      { content := [("a", "1")], override := false,
        mode := 384, checkMode := false }).contentAfter ≠ [("a", "1")] := by
  decide

/-- C8 amended: the merge is performed directly on the caller-supplied
mapping (`changeset = content` aliases it; no working copy is made).
When the file exists and `override = false`, each key of the mapping
that also exists on disk is overwritten in place with the on-disk value;
when `override = true` or the file does not exist, the mapping is left
exactly as supplied.  The result's `proposed` field always holds a copy
of the original mapping. -/
theorem configStore_working_copy_amended (file : Option FileState) (p : ConfigParams) :
    (p.override = true → (configMain file p).contentAfter = p.content) ∧
    (file = none → (configMain file p).contentAfter = p.content) ∧
    (∀ st k, file = some st → p.override = false → KeysNodup st.data →
      lookupKey (configMain file p).contentAfter k =
        (if containsKey p.content k && containsKey st.data k then
          lookupKey st.data k
        else lookupKey p.content k)) ∧
    (configMain file p).result.proposed = p.content := by
  refine ⟨?_, ?_, ?_, ?_⟩
  · intro ho
    cases file <;> simp [configMain, ho]
  · intro h
    subst h
    rfl
  · intro st k h ho hb
    subst h
    have hca : (configMain (some st) p).contentAfter =
        mergeKeepExisting st.data p.content := by
      simp [configMain, ho]
    rw [hca]
    exact lookupKey_merge st.data hb p.content k
  · cases file <;> rfl

/-- C8 amended witness: at the counterexample input the caller's mapping
afterwards holds the on-disk value for the overlapping key, and
`proposed` still records the originally supplied pair. -/
theorem configStore_working_copy_amended_witness :
    lookupKey (configMain (some { data := [("a", "2")], mode := 384 })
      { content := [("a", "1")], override := false,
        mode := 384, checkMode := false }).contentAfter "a" = some "2" ∧
    (configMain (some { data := [("a", "2")], mode := 384 })
      { content := [("a", "1")], override := false,
        mode := 384, checkMode := false }).result.proposed = [("a", "1")] := by
  have h := configStore_working_copy_amended
    (some { data := [("a", "2")], mode := 384 })
    { content := [("a", "1")], override := false, mode := 384, checkMode := false }
  refine ⟨?_, h.2.2.2⟩
  have h3 := h.2.2.1 { data := [("a", "2")], mode := 384 } "a" rfl rfl (by decide)
  rw [h3]
  decide

/-- C6 counterexample: with `override = true`, running reconciliation a
second time (starting from the file the first run created) still
reports `changed = true`, not the claimed `changed = false`. -/
theorem configStore_idempotence_cex :
    ¬ ((configMain
      (configMain none ⟨[("a", "1")], true, 384, false⟩).file
      ⟨[("a", "1")], true, 384, false⟩).result.changed = false) := by
  decide

/-- C6 amended: starting from an absent file, the first run reports
`changed = true` (create); the second run with identical inputs reports
`changed = false` when `override = false` but `changed = true` when
`override = true`; the final `value` is identical in both runs in either
case. -/
theorem configStore_idempotence_amended (p : ConfigParams)
    (hcm : p.checkMode = false) (hn : KeysNodup p.content) :
    (configMain none p).result.changed = true ∧
    (configMain (configMain none p).file p).result.changed = p.override ∧
    (configMain (configMain none p).file p).result.value =
      (configMain none p).result.value := by
  have hfile : (configMain none p).file = some { data := p.content, mode := p.mode } := by
    simp [configMain, hcm]
  refine ⟨rfl, ?_, ?_⟩
  · rw [hfile]
    rfl
  · rw [hfile]
    have hv : (configMain (some { data := p.content, mode := p.mode }) p).result.value =
        dictUpdate p.content
          (if p.override then p.content else mergeKeepExisting p.content p.content) := rfl
    rw [hv]
    cases ho : p.override
    · rw [if_neg (by simp [ho]), mergeKeepExisting_self p.content hn,
        dictUpdate_self p.content hn]
      rfl
    · rw [if_pos (by simp [ho]), dictUpdate_self p.content hn]
      rfl

/-- C6 amended witness: with `override = true` the first run creates the
file with `changed = true`, the second run reports `changed = true`
again, and both runs report the same final `value`. -/
theorem configStore_idempotence_amended_witness :
    (configMain none ⟨[("a", "1")], true, 384, false⟩).result.changed = true ∧
    (configMain (configMain none ⟨[("a", "1")], true, 384, false⟩).file
      ⟨[("a", "1")], true, 384, false⟩).result.changed =
      (⟨[("a", "1")], true, 384, false⟩ : ConfigParams).override ∧
    (configMain (configMain none ⟨[("a", "1")], true, 384, false⟩).file
      ⟨[("a", "1")], true, 384, false⟩).result.value =
      (configMain none ⟨[("a", "1")], true, 384, false⟩).result.value :=
  configStore_idempotence_amended ⟨[("a", "1")], true, 384, false⟩ rfl (by decide)

/-- C2: FileRelocator decision semantics in a non-check-mode run with no
OS faults.  (1) source exists, destination does not: `changed = true`
and the source is moved, regardless of `validate`; (2) source does not
exist: `changed = false` and nothing is done; (3) both exist and
`validate = false`: `changed = false` and both files stay as they are;
(4) both exist and `validate = true`: differing checksums move the
source over the destination with `changed = true`, equal checksums
remove only the source with `changed = false`. -/
theorem fileRelocator_decision_semantics (p : MoveParams) (st : MoveState)
    (hcm : p.checkMode = false) :
    (∀ c, st.src = some c → st.dest = none →
      moveMain p st none none =
        .ok true (some "Destination file doesnt exists, moving src to dest")
          ⟨none, some c⟩) ∧
    (st.src = none →
      moveMain p st none none = .ok false (some "File already moved") st) ∧
    (∀ cs cd, st.src = some cs → st.dest = some cd → p.validate = false →
      moveMain p st none none = .ok false (some "File already moved") st) ∧
    (∀ cs cd, st.src = some cs → st.dest = some cd → p.validate = true →
      (checksum cs ≠ checksum cd →
        moveMain p st none none =
          .ok true (some "File exists, but is different, moving src to dest")
            ⟨none, some cs⟩) ∧
      (checksum cs = checksum cd →
        moveMain p st none none =
          .ok false (some "File exists and src and dest are the same, removing source")
            ⟨none, some cd⟩)) := by
  refine ⟨?_, ?_, ?_, ?_⟩
  · intro c h1 h2
    cases hv : p.validate <;>
      simp [moveMain, moveDecision, hcm, hv, h1, h2]
  · intro h1
    cases hv : p.validate <;> cases hd : st.dest <;>
      simp [moveMain, moveDecision, hcm, hv, h1, hd]
  · intro cs cd h1 h2 hv
    simp [moveMain, moveDecision, hcm, hv, h1, h2]
  · intro cs cd h1 h2 hv
    constructor
    · intro hne
      simp [moveMain, moveDecision, hcm, hv, h1, h2, hne]
    · intro heq
      simp [moveMain, moveDecision, hcm, hv, h1, h2, heq]

/-- C2 witness: both files exist with different contents and
`validate = true`: the source is moved over the destination with
`changed = true`. -/
theorem fileRelocator_decision_semantics_witness :
    moveMain ⟨"/s", "/d", true, false⟩ ⟨some "x", some "y"⟩ none none =
      .ok true (some "File exists, but is different, moving src to dest")
        ⟨none, some "x"⟩ :=
  ((fileRelocator_decision_semantics ⟨"/s", "/d", true, false⟩
    ⟨some "x", some "y"⟩ rfl).2.2.2 "x" "y" rfl rfl rfl).1 (by decide)

/-- C4: FileRelocator validate postcondition: after every successful
non-check-mode run with `validate = true` in which the source existed
beforehand, the source path no longer exists and the destination holds
content equal to what the source held before (when the destination
already held equal content, it is preserved). -/
theorem fileRelocator_validate_postcondition (p : MoveParams) (st : MoveState)
    (c : String) (hv : p.validate = true) (hs : st.src = some c)
    (hcm : p.checkMode = false) (ch : Bool) (m : Option String) (st2 : MoveState)
    (hok : moveMain p st none none = .ok ch m st2) :
    st2.src = none ∧ st2.dest = some c := by
  cases hd : st.dest
  · simp [moveMain, moveDecision, hv, hs, hd, hcm] at hok
    rw [← hok.2.2]
    exact ⟨rfl, rfl⟩
  case some cd =>
    by_cases hcd : checksum c = checksum cd
    · simp [moveMain, moveDecision, hv, hs, hd, hcm, hcd] at hok
      rw [← hok.2.2]
      refine ⟨rfl, ?_⟩
      have hcc : c = cd := hcd
      rw [hcc]
    · simp [moveMain, moveDecision, hv, hs, hd, hcm, hcd] at hok
      rw [← hok.2.2]
      exact ⟨rfl, rfl⟩

/-- C4 witness: source and destination both exist with equal content:
the run succeeds, the source is gone and the destination still holds
that content. -/
theorem fileRelocator_validate_postcondition_witness :
    (⟨none, some "x"⟩ : MoveState).src = none ∧
    (⟨none, some "x"⟩ : MoveState).dest = some "x" :=
  fileRelocator_validate_postcondition ⟨"/s", "/d", true, false⟩
    ⟨some "x", some "x"⟩ "x" rfl rfl rfl false
    (some "File exists and src and dest are the same, removing source")
    ⟨none, some "x"⟩ (by decide)

/-- C9: when `os.remove` of the source fails (both files exist,
`validate = true`, equal checksums), the module does not fail cleanly
with a message naming both paths and the OS error: the handler's string
formatting has two placeholders and three arguments, so a `TypeError`
escapes and no message containing the cause is produced. -/
theorem fileRelocator_remove_failure_crash :
    moveMain ⟨"/opt/a", "/opt/b", true, false⟩ ⟨some "x", some "x"⟩ none
      (some "Permission denied") =
    .crashed "TypeError: not all arguments converted during string formatting"
      ⟨some "x", some "x"⟩ := by
  rfl

/-- C10: a check-mode invocation exits through
`exit_json(changed=changed)` (line 98), so its result carries no `msg`
at all, although the module documents `msg` as returned always. -/
theorem fileRelocator_checkmode_no_msg :
    moveMain ⟨"/opt/a", "/opt/b", false, true⟩ ⟨some "x", none⟩ none none =
      .ok true none ⟨some "x", none⟩ := by
  rfl

/-- C5: dry-run invariance for both modules: a check-mode run leaves the
filesystem state untouched, and the `changed` it reports equals the
`changed` that a non-check-mode run with identical inputs and identical
starting state (and no OS faults) reports. -/
theorem dryRun_invariance :
    (∀ (file : Option FileState) (p : ConfigParams), p.checkMode = true →
      (configMain file p).file = file ∧
      (configMain file p).result.changed =
        (configMain file ⟨p.content, p.override, p.mode, false⟩).result.changed) ∧
    (∀ (p : MoveParams) (st : MoveState), p.checkMode = true →
      (moveMain p st none none).state = st ∧
      (moveMain p st none none).changedOf =
        (moveMain ⟨p.src, p.dest, p.validate, false⟩ st none none).changedOf) := by
  constructor
  · intro file p h
    cases file
    · exact ⟨by simp [configMain, h], rfl⟩
    · exact ⟨by simp [configMain, h], rfl⟩
  · intro p st h
    constructor
    · simp [moveMain, h, MoveOutcome.state]
    · cases hd : (moveDecision p.validate st).1
      · cases hvs : p.validate && st.src.isSome <;>
          simp [moveMain, h, MoveOutcome.changedOf, hd, hvs]
      · simp [moveMain, h, MoveOutcome.changedOf, hd]

/-- C5 witness: concrete check-mode runs of both modules leave their
state unchanged and report the same `changed` as the corresponding real
runs. -/
theorem dryRun_invariance_witness :
    (configMain (some ⟨[("a", "1")], 384⟩) ⟨[("a", "2")], false, 384, true⟩).file =
      some ⟨[("a", "1")], 384⟩ ∧
    (configMain (some ⟨[("a", "1")], 384⟩) ⟨[("a", "2")], false, 384, true⟩).result.changed =
      (configMain (some ⟨[("a", "1")], 384⟩)
        ⟨[("a", "2")], false, 384, false⟩).result.changed ∧
    (moveMain ⟨"/s", "/d", false, true⟩ ⟨some "x", none⟩ none none).state =
      ⟨some "x", none⟩ ∧
    (moveMain ⟨"/s", "/d", false, true⟩ ⟨some "x", none⟩ none none).changedOf =
      (moveMain ⟨"/s", "/d", false, false⟩ ⟨some "x", none⟩ none none).changedOf := by
  have h1 := dryRun_invariance.1 (some ⟨[("a", "1")], 384⟩)
    ⟨[("a", "2")], false, 384, true⟩ rfl
  have h2 := dryRun_invariance.2 ⟨"/s", "/d", false, true⟩ ⟨some "x", none⟩ rfl
  exact ⟨h1.1, h1.2, h2.1, h2.2⟩
